import Mathlib

/-!
Verification development for the taskbar-cat pose-decision engine
(`src/base.py`, class `TaskbarCatOverlay`).

The engine's pure core is shallowly embedded:
* `determine_direction` embeds `TaskbarCatOverlay.determine_direction`
  (lines 290-331);
* `find_best_pose_candidates` embeds the candidate-list construction inside
  `TaskbarCatOverlay.find_best_pose` (lines 333-424) and `find_best_pose`
  embeds the lookup and fallback (lines 425-436);
* `EngineState` carries the mutable fields `current_pose`,
  `last_change_time`, `pose_images` and the displayed label pixmap;
  `set_pose` embeds lines 275-282 and `update_orientation` (one timer tick)
  embeds lines 438-464;
* `get_cat_anchor_point` embeds lines 284-288.

The pose library is modelled by its ordered key list (Python dict keys in
insertion order); pixmap contents play no role in any property considered
here.  Python's floor division `//` is embedded as `Int.fdiv`.  Times are
integers (milliseconds since epoch); the single clock read per tick stands
for both reads the source performs during one tick.
-/

namespace TaskbarCat

/-- Threshold constant `self.H_STRONG_THRESHOLD = 100` (base.py line 188). -/
def H_STRONG_THRESHOLD : Int := 100

/-- Threshold constant `self.H_WEAK_THRESHOLD = 60` (base.py line 189). -/
def H_WEAK_THRESHOLD : Int := 60

/-- Threshold constant `self.V_THRESHOLD = 80` (base.py line 190). -/
def V_THRESHOLD : Int := 80

/-- Cooldown constant `self.POSE_CHANGE_COOLDOWN_MS = 150` (base.py line 193). -/
def POSE_CHANGE_COOLDOWN_MS : Int := 150

/-- Horizontal if-chain of `TaskbarCatOverlay.determine_direction` (base.py
lines 292-312), yielding `(h_dir, h_intensity)`.  Python's
`-self.H_WEAK_THRESHOLD // 2` parses as `(-60) // 2` (unary minus binds
tighter than `//`) and `//` is floor division, embedded as `Int.fdiv`. -/
def determine_direction_h (dx : Int) : String × String :=
  if dx < -H_STRONG_THRESHOLD then ("left", "far")
  else if dx < -H_WEAK_THRESHOLD then ("left", "normal")
  else if dx < (-H_WEAK_THRESHOLD).fdiv 2 then ("left", "slight")
  else if dx > H_STRONG_THRESHOLD then ("right", "far")
  else if dx > H_WEAK_THRESHOLD then ("right", "normal")
  else if dx > H_WEAK_THRESHOLD.fdiv 2 then ("right", "slight")
  else ("forward", "normal")

/-- Vertical if-chain of `TaskbarCatOverlay.determine_direction` (base.py
lines 315-329), yielding `(v_dir, v_intensity)`. -/
def determine_direction_v (dy : Int) : String × String :=
  if dy < -V_THRESHOLD then ("up", "normal")
  else if dy < (-V_THRESHOLD).fdiv 2 then ("up", "slight")
  else if dy > V_THRESHOLD then ("down", "normal")
  else if dy > V_THRESHOLD.fdiv 2 then ("down", "slight")
  else ("center", "normal")

/-- Embedding of `TaskbarCatOverlay.determine_direction` (base.py lines
290-331): the two independent if-chains combined into the returned tuple
`(h_dir, h_intensity, v_dir, v_intensity)`. -/
def determine_direction (dx dy : Int) : String × String × String × String :=
  ((determine_direction_h dx).1, (determine_direction_h dx).2,
   (determine_direction_v dy).1, (determine_direction_v dy).2)

/-- Modelled from the spec: the direction tables of spec section 4.1, written
exactly with the interval conditions the spec states, to be compared with
`determine_direction`.  Both axes use the spec's closed/open interval
endpoints, with the half thresholds taken as the truncating divisions
`60 // 2 = 30` and `80 // 2 = 40`.  This is the horizontal table. -/
def classify_spec_h (dx : Int) : String × String :=
  if dx < -100 then ("left", "far")
  else if -100 ≤ dx ∧ dx < -60 then ("left", "normal")
  else if -60 ≤ dx ∧ dx < -30 then ("left", "slight")
  else if dx > 100 then ("right", "far")
  else if 60 < dx ∧ dx ≤ 100 then ("right", "normal")
  else if 30 < dx ∧ dx ≤ 60 then ("right", "slight")
  else ("forward", "normal")

/-- Modelled from the spec: the vertical table of spec section 4.1. -/
def classify_spec_v (dy : Int) : String × String :=
  if dy < -80 then ("up", "normal")
  else if -80 ≤ dy ∧ dy < -40 then ("up", "slight")
  else if dy > 80 then ("down", "normal")
  else if 40 < dy ∧ dy ≤ 80 then ("down", "slight")
  else ("center", "normal")

/-- Modelled from the spec: both section 4.1 tables combined into one
descriptor. -/
def classify_spec (dx dy : Int) : String × String × String × String :=
  ((classify_spec_h dx).1, (classify_spec_h dx).2,
   (classify_spec_v dy).1, (classify_spec_v dy).2)

lemma determine_direction_h_eq_spec (dx : Int) :
    determine_direction_h dx = classify_spec_h dx := by
  simp only [determine_direction_h, classify_spec_h, H_STRONG_THRESHOLD,
    H_WEAK_THRESHOLD,
    (show ((-60 : Int)).fdiv 2 = -30 from rfl),
    (show ((60 : Int)).fdiv 2 = 30 from rfl)]
  split_ifs <;> first | rfl | omega

lemma determine_direction_v_eq_spec (dy : Int) :
    determine_direction_v dy = classify_spec_v dy := by
  simp only [determine_direction_v, classify_spec_v, V_THRESHOLD,
    (show ((-80 : Int)).fdiv 2 = -40 from rfl),
    (show ((80 : Int)).fdiv 2 = 40 from rfl)]
  split_ifs <;> first | rfl | omega

/-- C1: the direction classifier is a pure total function on all integer
displacements and agrees everywhere with the spec section 4.1 tables
(including the truncated-division boundaries ±30 and ±40), and the two axes
are classified independently: the horizontal components depend only on `dx`
and the vertical components only on `dy`. -/
theorem classifier_matches_spec_tables :
    ∀ dx dy : Int,
      determine_direction dx dy = classify_spec dx dy ∧
      (∀ dy₂ : Int,
        (determine_direction dx dy).1 = (determine_direction dx dy₂).1 ∧
        (determine_direction dx dy).2.1 = (determine_direction dx dy₂).2.1) ∧
      (∀ dx₂ : Int,
        (determine_direction dx dy).2.2.1 = (determine_direction dx₂ dy).2.2.1 ∧
        (determine_direction dx dy).2.2.2 = (determine_direction dx₂ dy).2.2.2) := by
  intro dx dy
  refine ⟨?_, fun dy₂ => ⟨rfl, rfl⟩, fun dx₂ => ⟨rfl, rfl⟩⟩
  simp only [determine_direction, classify_spec,
    determine_direction_h_eq_spec, determine_direction_v_eq_spec]

/-- C6 counterexample: at `dx = -60` the classifier returns intensity
`"slight"`, not `"normal"` as the claim states. -/
theorem boundary_minus_sixty_not_normal :
    ¬ ((determine_direction (-60) 0).1 = "left" ∧
       (determine_direction (-60) 0).2.1 = "normal") := by
  decide

/-- C6 amended: the horizontal boundary values of the classifier are
`dx = -60 ↦ (left, slight)`, `dx = -59 ↦ (left, slight)`,
`dx = -31 ↦ (left, slight)`, `dx = -30 ↦ (forward, normal)`. -/
theorem classifier_horizontal_boundaries :
    determine_direction (-60) 0 = ("left", "slight", "center", "normal") ∧
    determine_direction (-59) 0 = ("left", "slight", "center", "normal") ∧
    determine_direction (-31) 0 = ("left", "slight", "center", "normal") ∧
    determine_direction (-30) 0 = ("forward", "normal", "center", "normal") := by
  decide

/-- C8: every displacement with `|dx| ≤ 30` and `|dy| ≤ 40` classifies as
horizontally `forward` and vertically `center`, and the two sample points
evaluate as the spec states. -/
theorem classifier_dead_zone_and_samples :
    (∀ dx dy : Int, |dx| ≤ 30 → |dy| ≤ 40 →
      (determine_direction dx dy).1 = "forward" ∧
      (determine_direction dx dy).2.2.1 = "center") ∧
    determine_direction (-150) (-200) = ("left", "far", "up", "normal") ∧
    determine_direction 70 50 = ("right", "normal", "down", "slight") := by
  refine ⟨fun dx dy hx hy => ?_, by decide, by decide⟩
  rw [abs_le] at hx hy
  constructor <;>
    simp only [determine_direction, determine_direction_h_eq_spec,
      determine_direction_v_eq_spec, classify_spec_h, classify_spec_v] <;>
    split_ifs <;> first | rfl | omega

/-- C8 witness at the concrete displacement `(0, 0)`. -/
theorem classifier_dead_zone_witness :
    (determine_direction 0 0).1 = "forward" ∧
    (determine_direction 0 0).2.2.1 = "center" :=
  classifier_dead_zone_and_samples.1 0 0 (by decide) (by decide)

/-- Candidate-list construction inside `TaskbarCatOverlay.find_best_pose`
(base.py lines 336-423): the nested conditional branches that fill the
`candidates` local, returned here as the ordered list.  The initial
`candidates = []` survives when `h_dir` is neither `"forward"` nor in
`["left", "right"]`. -/
def find_best_pose_candidates (h_dir h_intensity v_dir v_intensity : String) :
    List String :=
  if h_dir = "forward" then
    if v_dir = "center" then ["forward"]
    else
      if v_intensity = "slight" then
        ["forward_slight_" ++ v_dir, "forward_" ++ v_dir, "forward"]
      else
        ["forward_" ++ v_dir, "forward_slight_" ++ v_dir, "forward"]
  else if h_dir = "left" ∨ h_dir = "right" then
    if h_intensity = "far" then
      if v_dir = "center" then
        [h_dir ++ "_" ++ h_dir, h_dir, h_dir ++ "_center"]
      else
        if v_intensity = "slight" then
          [h_dir ++ "_slight_" ++ v_dir, h_dir ++ "_" ++ v_dir,
           h_dir ++ "_" ++ h_dir, h_dir]
        else
          [h_dir ++ "_" ++ v_dir, h_dir ++ "_slight_" ++ v_dir,
           h_dir ++ "_" ++ h_dir, h_dir]
    else if h_intensity = "slight" then
      if v_dir = "center" then
        ["forward_" ++ h_dir, h_dir, h_dir ++ "_center", "forward"]
      else
        let forward_side := "forward_" ++ h_dir
        if v_intensity = "slight" then
          [forward_side ++ "_slight_" ++ v_dir, forward_side ++ "_" ++ v_dir,
           forward_side,
           h_dir ++ "_slight_" ++ v_dir, h_dir ++ "_" ++ v_dir, h_dir,
           "forward_slight_" ++ v_dir, "forward_" ++ v_dir, "forward"]
        else
          [forward_side ++ "_" ++ v_dir, forward_side ++ "_slight_" ++ v_dir,
           forward_side,
           h_dir ++ "_" ++ v_dir, h_dir ++ "_slight_" ++ v_dir, h_dir,
           "forward_" ++ v_dir, "forward_slight_" ++ v_dir, "forward"]
    else
      if v_dir = "center" then [h_dir, h_dir ++ "_center"]
      else
        if v_intensity = "slight" then
          [h_dir ++ "_slight_" ++ v_dir, h_dir ++ "_" ++ v_dir, h_dir]
        else
          [h_dir ++ "_" ++ v_dir, h_dir ++ "_slight_" ++ v_dir, h_dir]
  else []

/-- Lookup-and-fallback tail of `TaskbarCatOverlay.find_best_pose` (base.py
lines 425-436): the first candidate present in `pose_images`, else
`"forward"` if present, else the first key (`list(keys)[0]` guarded by
`len > 0`), else `None`. -/
def find_best_pose (pose_images : List String)
    (h_dir h_intensity v_dir v_intensity : String) : Option String :=
  match (find_best_pose_candidates h_dir h_intensity v_dir v_intensity).find?
      (fun c => pose_images.contains c) with
  | some c => some c
  | none =>
      if pose_images.contains "forward" then some "forward"
      else
        match pose_images with
        | [] => none
        | k :: _ => some k

lemma contains_iff_mem {l : List String} {a : String} :
    l.contains a = true ↔ a ∈ l := List.elem_iff

/-- The resolver only ever answers with a key of the library. -/
lemma find_best_pose_mem {l : List String} {h hi v vi : String} {t : String}
    (ht : find_best_pose l h hi v vi = some t) : t ∈ l := by
  unfold find_best_pose at ht
  cases hf : (find_best_pose_candidates h hi v vi).find?
      (fun c => l.contains c) with
  | some c =>
      rw [hf] at ht
      obtain rfl : c = t := Option.some.inj ht
      exact contains_iff_mem.mp (List.find?_some hf)
  | none =>
      rw [hf] at ht
      by_cases hfw : l.contains "forward" = true
      · rw [if_pos hfw] at ht
        obtain rfl : "forward" = t := Option.some.inj ht
        exact contains_iff_mem.mp hfw
      · rw [if_neg hfw] at ht
        cases l with
        | nil => exact absurd ht (by simp)
        | cons k ks =>
            obtain rfl : k = t := Option.some.inj ht
            exact List.mem_cons_self k ks

/-- C4: for a sideways descriptor with slight horizontal intensity, the
candidate list is `[forward_{h}, {h}, {h}_center, forward]` when the
vertical direction is center, and exactly the nine names (vertical-qualified
`forward_{h}` forms intensity-matched first, then plain `forward_{h}`, then
the `{h}` forms, then the `forward` forms) otherwise; consequently on the
library `{"left", "forward"}` the descriptor (left, slight, center, normal)
resolves to `"left"`. -/
theorem slight_candidates_and_fallback :
    ∀ hd : String, hd = "left" ∨ hd = "right" →
      (∀ vi : String,
        find_best_pose_candidates hd "slight" "center" vi =
          ["forward_" ++ hd, hd, hd ++ "_center", "forward"]) ∧
      (∀ vd : String, ¬ vd = "center" →
        find_best_pose_candidates hd "slight" vd "slight" =
          ["forward_" ++ hd ++ "_slight_" ++ vd, "forward_" ++ hd ++ "_" ++ vd,
           "forward_" ++ hd,
           hd ++ "_slight_" ++ vd, hd ++ "_" ++ vd, hd,
           "forward_slight_" ++ vd, "forward_" ++ vd, "forward"] ∧
        find_best_pose_candidates hd "slight" vd "normal" =
          ["forward_" ++ hd ++ "_" ++ vd, "forward_" ++ hd ++ "_slight_" ++ vd,
           "forward_" ++ hd,
           hd ++ "_" ++ vd, hd ++ "_slight_" ++ vd, hd,
           "forward_" ++ vd, "forward_slight_" ++ vd, "forward"]) ∧
      find_best_pose ["left", "forward"] "left" "slight" "center" "normal" =
        some "left" ∧
      find_best_pose ["forward", "left"] "left" "slight" "center" "normal" =
        some "left" := by
  intro hd hhd
  obtain rfl | rfl := hhd <;>
    refine ⟨fun vi => rfl, fun vd hvd => ?_, by decide, by decide⟩ <;>
    simp only [find_best_pose_candidates, String.reduceEq, reduceIte,
      if_neg hvd, if_true, if_false, decide_True, decide_False,
      String.reduceAppend] <;>
    exact ⟨rfl, rfl⟩

/-- C5: for a sideways descriptor with far horizontal intensity, the
candidate list is `[{h}_{h}, {h}, {h}_center]` when the vertical direction
is center, and otherwise the intensity-matched vertical-qualified name
first, then the other intensity's name, then the doubled name `{h}_{h}`,
ending in plain `{h}`. -/
theorem far_candidate_lists :
    ∀ hd : String, hd = "left" ∨ hd = "right" →
      (∀ vi : String,
        find_best_pose_candidates hd "far" "center" vi =
          [hd ++ "_" ++ hd, hd, hd ++ "_center"]) ∧
      (∀ vd : String, ¬ vd = "center" →
        find_best_pose_candidates hd "far" vd "slight" =
          [hd ++ "_slight_" ++ vd, hd ++ "_" ++ vd, hd ++ "_" ++ hd, hd] ∧
        find_best_pose_candidates hd "far" vd "normal" =
          [hd ++ "_" ++ vd, hd ++ "_slight_" ++ vd, hd ++ "_" ++ hd, hd]) := by
  intro hd hhd
  obtain rfl | rfl := hhd <;>
    refine ⟨fun vi => rfl, fun vd hvd => ?_⟩ <;>
    simp only [find_best_pose_candidates, String.reduceEq, reduceIte,
      if_neg hvd, if_true, if_false, decide_True, decide_False,
      String.reduceAppend] <;>
    exact ⟨rfl, rfl⟩

/-- Mutable engine state of `TaskbarCatOverlay`: `current_pose` and
`last_change_time` (base.py lines 183-184), the pose library represented by
its ordered key list (`self.pose_images`, pixmap values abstracted away),
and the pose currently applied to the label via `setPixmap` (by name). -/
structure EngineState where
  current_pose : Option String
  last_change_time : Int
  pose_images : List String
  label_pixmap : Option String
  deriving DecidableEq

/-- Embedding of `TaskbarCatOverlay.set_pose` (base.py lines 275-282).
`now` stands for the `QDateTime.currentMSecsSinceEpoch()` read the source
performs at the assignment. -/
def set_pose (s : EngineState) (now : Int) (pose_name : String) : EngineState :=
  if some pose_name = s.current_pose then s
  else if s.pose_images.contains pose_name then
    { s with label_pixmap := some pose_name,
             current_pose := some pose_name,
             last_change_time := now }
  else s

/-- Anchor computation `TaskbarCatOverlay.get_cat_anchor_point` (base.py
lines 284-288) on geometry `(x, y, w, h)` with `w, h` the nonnegative Qt
box dimensions.  Python's `int(rect.width() * 0.5)` and
`int(rect.height() * 0.33)` truncate the float products toward zero; for
nonnegative dimensions below 2 ^ 50 the IEEE-double products truncate to
exactly `w / 2` and `33 * h / 100` in integers, which is how they are
embedded here. -/
def get_cat_anchor_point (x y : Int) (w h : Nat) : Int × Int :=
  (x + ((w / 2 : Nat) : Int), y + ((33 * h / 100 : Nat) : Int))

/-- Per-tick pose resolution pipeline of `update_orientation` (base.py lines
439-454): displacement from the anchor, classification, then resolution
against the library. -/
def tick_target (pose_images : List String) (mouse_x mouse_y gx gy : Int)
    (gw gh : Nat) : Option String :=
  let a := get_cat_anchor_point gx gy gw gh
  let dx := mouse_x - a.1
  let dy := mouse_y - a.2
  let d := determine_direction dx dy
  find_best_pose pose_images d.1 d.2.1 d.2.2.1 d.2.2.2

/-- Embedding of one timer tick `TaskbarCatOverlay.update_orientation`
(base.py lines 438-464): resolve the target, return unchanged when no pose
is available, otherwise commit through `set_pose` only when the target
differs from `current_pose` and the cooldown has elapsed. -/
def update_orientation (s : EngineState) (now mouse_x mouse_y gx gy : Int)
    (gw gh : Nat) : EngineState :=
  match tick_target s.pose_images mouse_x mouse_y gx gy gw gh with
  | none => s
  | some target_pose =>
      if ¬ (some target_pose = s.current_pose) then
        if POSE_CHANGE_COOLDOWN_MS ≤ now - s.last_change_time then
          set_pose s now target_pose
        else s
      else s

/-- Initial pose selection at the end of `TaskbarCatOverlay.load_images`
(base.py lines 267-273): prefer `"forward"`, else the first loaded key. -/
def load_images_initial_pose (s : EngineState) (now : Int) : EngineState :=
  if s.pose_images.contains "forward" then set_pose s now "forward"
  else
    match s.pose_images with
    | [] => s
    | first_pose :: _ => set_pose s now first_pose

/-- State effect of the resize re-scaling
`TaskbarCatOverlay.update_cat_position` (base.py lines 520-545): the loop
re-scales pixmap values for the existing keys only (iterating
`list(self.pose_images.keys())` and assigning to those same keys, so the
key set is unchanged), then reapplies the current pose to the label when it
is a present key.  On the key-list model the library is therefore
untouched. -/
def update_cat_position (s : EngineState) : EngineState :=
  match s.current_pose with
  | none => s
  | some p =>
      if s.pose_images.contains p then { s with label_pixmap := some p }
      else s

lemma find_best_pose_nil (h hi v vi : String) :
    find_best_pose [] h hi v vi = none := by
  unfold find_best_pose
  rw [List.find?_eq_none.mpr (fun x _ => by simp [List.contains])]
  rfl

lemma tick_target_nil (mx my gx gy : Int) (gw gh : Nat) :
    tick_target [] mx my gx gy gw gh = none := by
  simp only [tick_target, find_best_pose_nil]

/-- The tick answers only with keys of the library. -/
lemma tick_target_mem {l : List String} {mx my gx gy : Int} {gw gh : Nat}
    {t : String} (ht : tick_target l mx my gx gy gw gh = some t) : t ∈ l :=
  find_best_pose_mem ht

lemma update_orientation_of_none {s : EngineState} {now mx my gx gy : Int}
    {gw gh : Nat}
    (hb : tick_target s.pose_images mx my gx gy gw gh = none) :
    update_orientation s now mx my gx gy gw gh = s := by
  unfold update_orientation
  rw [hb]

lemma update_orientation_of_eq {s : EngineState} {now mx my gx gy : Int}
    {gw gh : Nat}
    (hc : tick_target s.pose_images mx my gx gy gw gh = s.current_pose) :
    update_orientation s now mx my gx gy gw gh = s := by
  cases ht : tick_target s.pose_images mx my gx gy gw gh with
  | none => exact update_orientation_of_none ht
  | some t =>
      rw [ht] at hc
      simp only [update_orientation, ht]
      rw [if_neg (not_not_intro hc)]

lemma update_orientation_of_cooldown {s : EngineState} {now mx my gx gy : Int}
    {gw gh : Nat}
    (hd : now - s.last_change_time < POSE_CHANGE_COOLDOWN_MS) :
    update_orientation s now mx my gx gy gw gh = s := by
  cases ht : tick_target s.pose_images mx my gx gy gw gh with
  | none => exact update_orientation_of_none ht
  | some t =>
      simp only [update_orientation, ht]
      by_cases hne : some t = s.current_pose
      · rw [if_neg (not_not_intro hne)]
      · rw [if_pos hne, if_neg (not_le.mpr hd)]

lemma update_orientation_commit {s : EngineState} {now mx my gx gy : Int}
    {gw gh : Nat} {t : String}
    (ht : tick_target s.pose_images mx my gx gy gw gh = some t)
    (hne : ¬ (some t = s.current_pose))
    (hcool : POSE_CHANGE_COOLDOWN_MS ≤ now - s.last_change_time) :
    update_orientation s now mx my gx gy gw gh =
      { s with current_pose := some t, last_change_time := now,
               label_pixmap := some t } := by
  simp only [update_orientation, ht]
  rw [if_pos hne, if_pos hcool]
  unfold set_pose
  rw [if_neg hne,
    if_pos (contains_iff_mem.mpr (tick_target_mem ht))]

lemma update_orientation_pose_images (s : EngineState)
    (now mx my gx gy : Int) (gw gh : Nat) :
    (update_orientation s now mx my gx gy gw gh).pose_images =
      s.pose_images := by
  cases ht : tick_target s.pose_images mx my gx gy gw gh with
  | none => rw [update_orientation_of_none ht]
  | some t =>
      simp only [update_orientation, set_pose, ht]
      split_ifs <;> rfl

lemma find?_first_present (l pre : List String) (c : String)
    (post : List String) (hc : c ∈ l) (hpre : ∀ c' ∈ pre, c' ∉ l) :
    (pre ++ c :: post).find? (fun x => l.contains x) = some c := by
  induction pre with
  | nil =>
      simp only [List.nil_append]
      exact List.find?_cons_of_pos _ (contains_iff_mem.mpr hc)
  | cons a as ih =>
      have ha : ¬ (l.contains a = true) :=
        fun h => hpre a (List.mem_cons_self a as) (contains_iff_mem.mp h)
      simp only [List.cons_append]
      rw [List.find?_cons_of_neg _ (by simpa using ha)]
      exact ih (fun c' hc' => hpre c' (List.mem_cons_of_mem a hc'))

/-- C2: the resolver returns the first constructed candidate present in the
library; when no constructed candidate is present it returns `"forward"`
when present and otherwise the library's first key; its answer is the
explicit no-pose result (`none`) exactly when the library is empty; and on
an empty library the tick leaves the whole engine state, display included,
unchanged. -/
theorem resolver_fallback_and_empty_library :
    ∀ (h hi v vi : String) (l : List String),
      (∀ (pre : List String) (c : String) (post : List String),
        find_best_pose_candidates h hi v vi = pre ++ c :: post → c ∈ l →
        (∀ c' ∈ pre, c' ∉ l) →
        find_best_pose l h hi v vi = some c) ∧
      ((∀ c ∈ find_best_pose_candidates h hi v vi, c ∉ l) →
        find_best_pose l h hi v vi =
          if l.contains "forward" then some "forward" else l.head?) ∧
      (find_best_pose l h hi v vi = none ↔ l = []) ∧
      (∀ (s : EngineState) (now mx my gx gy : Int) (gw gh : Nat),
        s.pose_images = [] →
        update_orientation s now mx my gx gy gw gh = s) := by
  intro h hi v vi l
  refine ⟨?_, ?_, ?_, ?_⟩
  · intro pre c post hcand hc hpre
    unfold find_best_pose
    rw [hcand, find?_first_present l pre c post hc hpre]
  · intro hall
    unfold find_best_pose
    rw [List.find?_eq_none.mpr
      (fun x hx => by
        simpa using fun hmem => hall x hx (contains_iff_mem.mp hmem))]
    cases l <;> simp [List.head?]
  · constructor
    · intro hnone
      unfold find_best_pose at hnone
      cases hf : (find_best_pose_candidates h hi v vi).find?
          (fun c => l.contains c) with
      | some c => rw [hf] at hnone; exact absurd hnone (by simp)
      | none =>
          rw [hf] at hnone
          by_cases hfw : l.contains "forward" = true
          · rw [if_pos hfw] at hnone; exact absurd hnone (by simp)
          · rw [if_neg hfw] at hnone
            cases l with
            | nil => rfl
            | cons k ks => exact absurd hnone (by simp)
    · rintro rfl
      exact find_best_pose_nil h hi v vi
  · intro s now mx my gx gy gw gh hempty
    exact update_orientation_of_none (by rw [hempty]; exact tick_target_nil _ _ _ _ _ _)

/-- C2 witness: with library `["left"]` and the descriptor
(left, normal, center, normal), the first present candidate is `"left"`. -/
theorem resolver_fallback_witness :
    find_best_pose ["left"] "left" "normal" "center" "normal" = some "left" :=
  (resolver_fallback_and_empty_library "left" "normal" "center" "normal"
    ["left"]).1 [] "left" ["left_center"] rfl (by decide) (by decide)

/-- C3: a tick commits the resolved target to `current_pose` exactly when it
differs from `current_pose` and at least 150 ms have elapsed since the last
accepted change; a blocked tick (cooldown not elapsed, or target equal to
the current pose, or no pose available) changes nothing, display included;
a commit sets `last_change_time` to the tick time; and in particular, after
a change accepted at `t0`, a differing qualifying target is rejected at
`t0 + 100` and accepted at `t0 + 151`. -/
theorem cooldown_gate :
    ∀ (s : EngineState) (now mx my gx gy : Int) (gw gh : Nat),
      (∀ t : String,
        tick_target s.pose_images mx my gx gy gw gh = some t →
        ¬ (some t = s.current_pose) →
        POSE_CHANGE_COOLDOWN_MS ≤ now - s.last_change_time →
        update_orientation s now mx my gx gy gw gh =
          { s with current_pose := some t, last_change_time := now,
                   label_pixmap := some t }) ∧
      (tick_target s.pose_images mx my gx gy gw gh = s.current_pose →
        update_orientation s now mx my gx gy gw gh = s) ∧
      (tick_target s.pose_images mx my gx gy gw gh = none →
        update_orientation s now mx my gx gy gw gh = s) ∧
      (now - s.last_change_time < POSE_CHANGE_COOLDOWN_MS →
        update_orientation s now mx my gx gy gw gh = s) ∧
      (∀ (t0 : Int) (t : String),
        s.last_change_time = t0 →
        tick_target s.pose_images mx my gx gy gw gh = some t →
        ¬ (some t = s.current_pose) →
        (update_orientation s (t0 + 100) mx my gx gy gw gh).current_pose =
            s.current_pose ∧
        (update_orientation s (t0 + 151) mx my gx gy gw gh).current_pose =
            some t) := by
  intro s now mx my gx gy gw gh
  refine ⟨fun t ht hne hcool => update_orientation_commit ht hne hcool,
    fun hc => update_orientation_of_eq hc,
    fun hb => update_orientation_of_none hb,
    fun hd => update_orientation_of_cooldown hd,
    fun t0 t ht0 ht hne => ⟨?_, ?_⟩⟩
  · rw [update_orientation_of_cooldown
      (by rw [ht0]; simp [POSE_CHANGE_COOLDOWN_MS])]
  · rw [update_orientation_commit ht hne
      (by rw [ht0]; simp [POSE_CHANGE_COOLDOWN_MS])]

/-- C3 witness: a concrete commit at exactly the cooldown boundary. -/
theorem cooldown_gate_witness :
    update_orientation
        ⟨some "forward", 0, ["forward", "left"], some "forward"⟩
        150 (-150) 0 0 0 0 0 =
      ⟨some "left", 150, ["forward", "left"], some "left"⟩ :=
  (cooldown_gate ⟨some "forward", 0, ["forward", "left"], some "forward"⟩
    150 (-150) 0 0 0 0 0).1 "left" (by decide) (by decide) (by decide)

/-- C4 witness: the slight-left centered candidate list at a concrete
descriptor. -/
theorem slight_candidates_witness :
    find_best_pose_candidates "left" "slight" "center" "normal" =
      ["forward_left", "left", "left_center", "forward"] :=
  (slight_candidates_and_fallback "left" (Or.inl rfl)).1 "normal"

/-- C5 witness: the far-right centered candidate list at a concrete
descriptor. -/
theorem far_candidates_witness :
    find_best_pose_candidates "right" "far" "center" "normal" =
      ["right_right", "right", "right_center"] :=
  (far_candidate_lists "right" (Or.inr rfl)).1 "normal"

/-- C7 counterexample: first tick at time 200 (cooldown since time 100 not
yet elapsed) is blocked, and the second tick at time 275 with the identical
pointer and anchor inputs then commits, changing `current_pose` after the
first tick's resolution. -/
theorem tick_idempotence_counterexample :
    (update_orientation
        (update_orientation
          ⟨some "forward", 100, ["forward", "left"], some "forward"⟩
          200 (-150) 0 0 0 0 0)
        275 (-150) 0 0 0 0 0).current_pose ≠
      (update_orientation
        ⟨some "forward", 100, ["forward", "left"], some "forward"⟩
        200 (-150) 0 0 0 0 0).current_pose := by
  decide

/-- C7 amended: two consecutive ticks with identical pointer position and
anchor geometry leave `current_pose` unchanged after the first tick,
provided the first tick was not blocked by the cooldown gate (its target
was absent, or equal to the current pose, or the cooldown had elapsed at
the first tick); the second tick can change `current_pose` only when the
first tick saw a differing target within the cooldown window. -/
theorem tick_idempotent_unless_first_blocked :
    ∀ (s : EngineState) (t1 t2 mx my gx gy : Int) (gw gh : Nat),
      (tick_target s.pose_images mx my gx gy gw gh = none ∨
       tick_target s.pose_images mx my gx gy gw gh = s.current_pose ∨
       POSE_CHANGE_COOLDOWN_MS ≤ t1 - s.last_change_time) →
      (update_orientation (update_orientation s t1 mx my gx gy gw gh)
          t2 mx my gx gy gw gh).current_pose =
        (update_orientation s t1 mx my gx gy gw gh).current_pose := by
  intro s t1 t2 mx my gx gy gw gh hyp
  cases ht : tick_target s.pose_images mx my gx gy gw gh with
  | none =>
      rw [show update_orientation s t1 mx my gx gy gw gh = s from
        update_orientation_of_none ht]
      rw [show update_orientation s t2 mx my gx gy gw gh = s from
        update_orientation_of_none ht]
  | some t =>
      by_cases heq : some t = s.current_pose
      · rw [show update_orientation s t1 mx my gx gy gw gh = s from
          update_orientation_of_eq (by rw [ht, heq])]
        rw [show update_orientation s t2 mx my gx gy gw gh = s from
          update_orientation_of_eq (by rw [ht, heq])]
      · rcases hyp with hnone | heqq | hcool
        · rw [ht] at hnone
          exact absurd hnone (by simp)
        · rw [ht] at heqq
          exact absurd heqq heq
        · rw [show update_orientation s t1 mx my gx gy gw gh =
              { s with current_pose := some t, last_change_time := t1,
                       label_pixmap := some t } from
            update_orientation_commit ht heq hcool]
          rw [show update_orientation
              { s with current_pose := some t, last_change_time := t1,
                       label_pixmap := some t } t2 mx my gx gy gw gh =
              { s with current_pose := some t, last_change_time := t1,
                       label_pixmap := some t } from
            update_orientation_of_eq (by simpa using ht)]

/-- C7 witness: a concrete unblocked first tick followed by an identical
second tick. -/
theorem tick_idempotent_witness :
    (update_orientation
        (update_orientation ⟨some "forward", 0, ["forward"], some "forward"⟩
          75 0 0 0 0 0 0)
        150 0 0 0 0 0 0).current_pose =
      (update_orientation ⟨some "forward", 0, ["forward"], some "forward"⟩
        75 0 0 0 0 0 0).current_pose :=
  tick_idempotent_unless_first_blocked
    ⟨some "forward", 0, ["forward"], some "forward"⟩ 75 150 0 0 0 0 0 0
    (Or.inr (Or.inl (by decide)))

/-- Invariant: `current_pose` is either `none` or a key of the pose
library. -/
def PoseInvariant (s : EngineState) : Prop :=
  ∀ q : String, s.current_pose = some q → q ∈ s.pose_images

lemma set_pose_eq_or (s : EngineState) (now : Int) (p : String) :
    set_pose s now p = s ∨
    (p ∈ s.pose_images ∧
      set_pose s now p =
        { s with current_pose := some p, last_change_time := now,
                 label_pixmap := some p }) := by
  unfold set_pose
  split_ifs with h1 h2
  · exact Or.inl rfl
  · exact Or.inr ⟨contains_iff_mem.mp h2, rfl⟩
  · exact Or.inl rfl

lemma set_pose_invariant {s : EngineState} {now : Int} {p : String}
    (hinv : PoseInvariant s) : PoseInvariant (set_pose s now p) := by
  rcases set_pose_eq_or s now p with h | ⟨hm, h⟩ <;> rw [h]
  · exact hinv
  · intro q hq
    obtain rfl : p = q := Option.some.inj hq
    exact hm

lemma set_pose_nonnone {s : EngineState} {now : Int} {p : String}
    (hnn : ¬ s.current_pose = none) :
    ¬ (set_pose s now p).current_pose = none := by
  rcases set_pose_eq_or s now p with h | ⟨hm, h⟩ <;> rw [h]
  · exact hnn
  · simp

lemma update_orientation_eq_or (s : EngineState) (now mx my gx gy : Int)
    (gw gh : Nat) :
    update_orientation s now mx my gx gy gw gh = s ∨
    ∃ t : String, update_orientation s now mx my gx gy gw gh =
      set_pose s now t := by
  cases ht : tick_target s.pose_images mx my gx gy gw gh with
  | none => exact Or.inl (update_orientation_of_none ht)
  | some t =>
      by_cases hne : some t = s.current_pose
      · exact Or.inl (update_orientation_of_eq (by rw [ht, hne]))
      · by_cases hcool : POSE_CHANGE_COOLDOWN_MS ≤ now - s.last_change_time
        · refine Or.inr ⟨t, ?_⟩
          simp only [update_orientation, ht]
          rw [if_pos hne, if_pos hcool]
        · exact Or.inl (update_orientation_of_cooldown (not_le.mp hcool))

lemma load_images_initial_pose_eq_or (s : EngineState) (now : Int) :
    load_images_initial_pose s now = s ∨
    ∃ t : String, load_images_initial_pose s now = set_pose s now t := by
  unfold load_images_initial_pose
  split_ifs
  · exact Or.inr ⟨"forward", rfl⟩
  · cases s.pose_images with
    | nil => exact Or.inl rfl
    | cons k ks => exact Or.inr ⟨k, rfl⟩

lemma update_cat_position_eq_or (s : EngineState) :
    update_cat_position s = s ∨
    update_cat_position s = { s with label_pixmap := s.current_pose } := by
  cases hc : s.current_pose with
  | none =>
      refine Or.inl ?_
      simp only [update_cat_position, hc]
  | some p =>
      simp only [update_cat_position, hc]
      split_ifs
      · exact Or.inr rfl
      · exact Or.inl rfl

/-- C10: every engine operation keeps `current_pose` equal to `none` or to a
key present in the pose library (`set_pose` assigns only present names and
is a no-op otherwise), a non-`none` `current_pose` never becomes `none`
again, and the resize re-scaling preserves the library's key set. -/
theorem engine_pose_invariant :
    ∀ (s : EngineState) (now mx my gx gy : Int) (gw gh : Nat) (p : String),
      (¬ (s.pose_images.contains p = true) → set_pose s now p = s) ∧
      (PoseInvariant s →
        PoseInvariant (set_pose s now p) ∧
        PoseInvariant (update_orientation s now mx my gx gy gw gh) ∧
        PoseInvariant (load_images_initial_pose s now) ∧
        PoseInvariant (update_cat_position s)) ∧
      (¬ (s.current_pose = none) →
        ¬ ((set_pose s now p).current_pose = none) ∧
        ¬ ((update_orientation s now mx my gx gy gw gh).current_pose = none) ∧
        ¬ ((load_images_initial_pose s now).current_pose = none) ∧
        ¬ ((update_cat_position s).current_pose = none)) ∧
      (update_cat_position s).pose_images = s.pose_images := by
  intro s now mx my gx gy gw gh p
  refine ⟨?_, fun hinv => ⟨set_pose_invariant hinv, ?_, ?_, ?_⟩,
    fun hnn => ⟨set_pose_nonnone hnn, ?_, ?_, ?_⟩, ?_⟩
  · intro hnc
    rcases set_pose_eq_or s now p with h | ⟨hm, h⟩
    · exact h
    · exact absurd (contains_iff_mem.mpr hm) hnc
  · rcases update_orientation_eq_or s now mx my gx gy gw gh with h | ⟨t, h⟩ <;>
      rw [h]
    · exact hinv
    · exact set_pose_invariant hinv
  · rcases load_images_initial_pose_eq_or s now with h | ⟨t, h⟩ <;> rw [h]
    · exact hinv
    · exact set_pose_invariant hinv
  · rcases update_cat_position_eq_or s with h | h <;> rw [h]
    · exact hinv
    · exact hinv
  · rcases update_orientation_eq_or s now mx my gx gy gw gh with h | ⟨t, h⟩ <;>
      rw [h]
    · exact hnn
    · exact set_pose_nonnone hnn
  · rcases load_images_initial_pose_eq_or s now with h | ⟨t, h⟩ <;> rw [h]
    · exact hnn
    · exact set_pose_nonnone hnn
  · rcases update_cat_position_eq_or s with h | h <;> rw [h]
    · exact hnn
    · exact hnn
  · rcases update_cat_position_eq_or s with h | h <;> rw [h]

/-- C10 witness: the invariant after a concrete `set_pose` on a state with
no current pose. -/
theorem engine_pose_invariant_witness :
    PoseInvariant (set_pose ⟨none, 0, ["forward"], none⟩ 5 "forward") :=
  ((engine_pose_invariant ⟨none, 0, ["forward"], none⟩ 5 0 0 0 0 0 0
    "forward").2.1 (fun _ hq => Option.noConfusion hq)).1

/-- Modelled from the spec: the anchor formula of spec section 6,
`(x + width * 0.5, y + height * 0.33)` taken literally as exact rational
arithmetic with the fixed anchor ratio `(0.5, 0.33)`, to be compared with
the source's `get_cat_anchor_point`. -/
def anchor_point_spec (x y : Int) (w h : Nat) : ℚ × ℚ :=
  ((x : ℚ) + (w : ℚ) * (1 / 2 : ℚ), (y : ℚ) + (h : ℚ) * (33 / 100 : ℚ))

/-- C9 counterexample: on the bounding box `(0, 0, 151, 100)` the source's
anchor x-coordinate is the truncated `75`, not the spec formula's
`151 / 2`. -/
theorem anchor_point_counterexample :
    ¬ ((((get_cat_anchor_point 0 0 151 100).1 : ℚ),
        ((get_cat_anchor_point 0 0 151 100).2 : ℚ)) =
      anchor_point_spec 0 0 151 100) := by
  intro hEq
  have h1 := congrArg Prod.fst hEq
  simp only [get_cat_anchor_point, anchor_point_spec] at h1
  norm_num at h1

/-- C9 amended: for every bounding box the anchor point equals
`(x + floor of width * 0.5, y + floor of height * 0.33)`, the two ratio
products truncated to integers, with the anchor ratio the fixed constant
pair `(0.5, 0.33)`. -/
theorem anchor_point_truncated_ratio :
    ∀ (x y : Int) (w h : Nat),
      get_cat_anchor_point x y w h =
        (x + ⌊(w : ℚ) * (1 / 2 : ℚ)⌋, y + ⌊(h : ℚ) * (33 / 100 : ℚ)⌋) := by
  intro x y w h
  have e1 : (w : ℚ) * (1 / 2 : ℚ) = ((w : ℕ) : ℚ) / ((2 : ℕ) : ℚ) := by
    push_cast
    ring
  have e2 : (h : ℚ) * (33 / 100 : ℚ) = ((33 * h : ℕ) : ℚ) / ((100 : ℕ) : ℚ) := by
    push_cast
    ring
  simp only [get_cat_anchor_point, Prod.mk.injEq]
  rw [e1, e2, Rat.floor_natCast_div_natCast, Rat.floor_natCast_div_natCast]
  constructor <;> omega

end TaskbarCat
